import Mathlib

/-!
Verification of the container-hotplug core against its specification.

Each section embeds one component of the program as executable Lean
definitions translated from the Rust sources, and proves the specified
properties about them.
-/

set_option maxHeartbeats 1000000

namespace ContainerHotplug

/-! ## Device-filter program (cgroup_device_filter/src/main.rs)

The eBPF `check_device` program adjudicates device-access checks for the
container's cgroup.  The kernel passes a packed `access_type` word whose
lower 16 bits are the device type and upper 16 bits the access bits,
together with the major/minor numbers.  `DEVICE_PERM` is a hash map from
`(type, major, minor)` to a permission mask, modelled here as a partial
function.
-/

/-- Kernel BPF device-cgroup constant: block device type. -/
def BPF_DEVCG_DEV_BLOCK : Nat := 1

/-- Kernel BPF device-cgroup constant: character device type. -/
def BPF_DEVCG_DEV_CHAR : Nat := 2

/-- Kernel BPF device-cgroup constant: the mknod access bit. -/
def BPF_DEVCG_ACC_MKNOD : Nat := 1

/-- Key of the `DEVICE_PERM` map: device type, major, minor
(struct `Device` in cgroup_device_filter/src/main.rs). -/
structure Device where
  ty : Nat
  major : Nat
  minor : Nat
deriving DecidableEq, Repr

/-- The `DEVICE_PERM` eBPF hash map, `Device -> u32`, as a partial function. -/
def DevMap : Type := Device → Option Nat

/-- Point update of a `DevMap`, the semantics of a BPF map insert. -/
def DevMap.insert (m : DevMap) (k : Device) (v : Nat) : DevMap :=
  fun k' => if k' = k then some v else m k'

/-- Point removal from a `DevMap`, the semantics of a BPF map delete. -/
def DevMap.remove (m : DevMap) (k : Device) : DevMap :=
  fun k' => if k' = k then none else m k'

/-- `check_device` from cgroup_device_filter/src/main.rs.

`access_type`'s lower 16 bits are the device type, upper 16 bits the access
bits.  Returns 1 (allow) or 0 (deny).  The branch structure mirrors the
source: mknod fast path, the fixed default-device match (null, zero, full,
random, urandom, tty, console, ptmx, the whole char major 136), then the
`DEVICE_PERM` lookup with `(ty, 0, 0)` fallback and the
`perm & access == access` test. -/
def check_device (perm : DevMap) (access_type major minor : Nat) : Int :=
  let ty := access_type % 65536
  let access := access_type / 65536
  let dev : Device := ⟨ty, major, minor⟩
  if (ty = BPF_DEVCG_DEV_BLOCK ∨ ty = BPF_DEVCG_DEV_CHAR) ∧
      access = BPF_DEVCG_ACC_MKNOD then
    1
  else if dev = ⟨BPF_DEVCG_DEV_CHAR, 1, 3⟩ ∨ dev = ⟨BPF_DEVCG_DEV_CHAR, 1, 5⟩ ∨
      dev = ⟨BPF_DEVCG_DEV_CHAR, 1, 7⟩ ∨ dev = ⟨BPF_DEVCG_DEV_CHAR, 1, 8⟩ ∨
      dev = ⟨BPF_DEVCG_DEV_CHAR, 1, 9⟩ ∨ dev = ⟨BPF_DEVCG_DEV_CHAR, 5, 0⟩ ∨
      dev = ⟨BPF_DEVCG_DEV_CHAR, 5, 1⟩ ∨ dev = ⟨BPF_DEVCG_DEV_CHAR, 5, 2⟩ ∨
      (dev.ty = BPF_DEVCG_DEV_CHAR ∧ dev.major = 136) then
    1
  else
    let device_perm :=
      match perm dev with
      | some p => some p
      | none => perm ⟨ty, 0, 0⟩
    match device_perm with
    | some p => if p &&& access = access then 1 else 0
    | none => 0

/-- The claim's description of the unconditional pass-through list: the eight
default character devices plus every character device with major 136. -/
def isDefaultCharDevice (ty major minor : Nat) : Prop :=
  ty = BPF_DEVCG_DEV_CHAR ∧
    ((major = 1 ∧ (minor = 3 ∨ minor = 5 ∨ minor = 7 ∨ minor = 8 ∨ minor = 9)) ∨
     (major = 5 ∧ (minor = 0 ∨ minor = 1 ∨ minor = 2)) ∨
     major = 136)

instance (ty major minor : Nat) : Decidable (isDefaultCharDevice ty major minor) := by
  unfold isDefaultCharDevice; infer_instance

/-- C1: the device-filter decision.  For every access check with a packed
`access_type = ty + 65536 * access` where `ty` is a device type: if the
access bits equal MKNOD the result is allow; else if the device is a default
character device the result is allow regardless of the map; otherwise the
map is consulted at `(ty, major, minor)` falling back to `(ty, 0, 0)`, with
deny on a double miss and `m &&& access = access` deciding a hit. -/
theorem check_device_decision (perm : DevMap) (ty major minor access : Nat)
    (hty : ty = BPF_DEVCG_DEV_BLOCK ∨ ty = BPF_DEVCG_DEV_CHAR) :
    (access = BPF_DEVCG_ACC_MKNOD →
      check_device perm (ty + 65536 * access) major minor = 1) ∧
    (access ≠ BPF_DEVCG_ACC_MKNOD → isDefaultCharDevice ty major minor →
      check_device perm (ty + 65536 * access) major minor = 1) ∧
    (access ≠ BPF_DEVCG_ACC_MKNOD → ¬ isDefaultCharDevice ty major minor →
      check_device perm (ty + 65536 * access) major minor =
        match (match perm ⟨ty, major, minor⟩ with
               | some p => some p
               | none => perm ⟨ty, 0, 0⟩) with
        | some m => if m &&& access = access then 1 else 0
        | none => 0) := by
  have hmod : (ty + 65536 * access) % 65536 = ty := by
    rcases hty with h | h <;> simp [h, BPF_DEVCG_DEV_BLOCK, BPF_DEVCG_DEV_CHAR]
  have hdiv : (ty + 65536 * access) / 65536 = access := by
    rcases hty with h | h <;> simp [h, BPF_DEVCG_DEV_BLOCK, BPF_DEVCG_DEV_CHAR] <;> omega
  refine ⟨?_, ?_, ?_⟩
  · intro ha
    unfold check_device
    simp only [hmod, hdiv]
    rw [if_pos ⟨hty, ha⟩]
  · intro ha hdef
    unfold check_device
    simp only [hmod, hdiv]
    rw [if_neg (by exact fun h => ha h.2)]
    rw [if_pos ?_]
    rcases hdef with ⟨htyc, hrest⟩
    subst htyc
    simp only [Device.mk.injEq]
    rcases hrest with ⟨h1, h3 | h5 | h7 | h8 | h9⟩ | ⟨h5, h0 | h1' | h2⟩ | h136 <;>
      subst_vars <;> simp
  · intro ha hdef
    unfold check_device
    simp only [hmod, hdiv]
    rw [if_neg (by exact fun h => ha h.2)]
    rw [if_neg ?_]
    intro h
    apply hdef
    simp only [Device.mk.injEq] at h
    unfold isDefaultCharDevice
    rcases h with ⟨h1, h2, h3⟩ | ⟨h1, h2, h3⟩ | ⟨h1, h2, h3⟩ | ⟨h1, h2, h3⟩ |
      ⟨h1, h2, h3⟩ | ⟨h1, h2, h3⟩ | ⟨h1, h2, h3⟩ | ⟨h1, h2, h3⟩ | ⟨h1, h2⟩ <;>
      subst_vars <;> simp

/-- Witness for C1: with a map granting mask 6 (read+write) to char device
189:0, a read check (access bits 2) on that device is allowed. -/
theorem check_device_decision_witness :
    check_device (fun k => if k = ⟨2, 189, 0⟩ then some 6 else none)
      (2 + 65536 * 2) 189 0 = 1 := by
  have h := check_device_decision (fun k => if k = ⟨2, 189, 0⟩ then some 6 else none)
    2 189 0 2 (Or.inr rfl)
  have h3 := h.2.2 (by decide) (by decide)
  rw [h3]
  decide

/-! ## `set_permission` on the cgroup-v2 controller (src/cgroup.rs) -/

/-- `DeviceType` from src/cgroup.rs; the numeric representation matches the
BPF_DEVCG constants. -/
inductive DeviceType
  | Block
  | Character
deriving DecidableEq, Repr

/-- The `repr(u32)` value of a `DeviceType`. -/
def DeviceType.toU32 : DeviceType → Nat
  | .Block => 1
  | .Character => 2

/-- `DeviceAccessControllerV2::set_permission` (src/cgroup.rs lines 183-201):
an empty access mask removes the map entry, a non-empty mask inserts the
mask's bit pattern at the key.  Access bits: MKNOD = 1, READ = 2, WRITE = 4;
`access.is_empty()` is `access = 0`. -/
def set_permission (m : DevMap) (ty : DeviceType) (major minor : Nat)
    (access : Nat) : DevMap :=
  let device : Device := ⟨ty.toU32, major, minor⟩
  if access = 0 then m.remove device else m.insert device access

/-- C6: after `set_permission(ty, major, minor, access)`, an empty mask
leaves no entry at `(ty, major, minor)` and a non-empty mask maps that key
to exactly the mask's bit pattern. -/
theorem set_permission_post (m : DevMap) (ty : DeviceType) (major minor access : Nat) :
    (access = 0 →
      set_permission m ty major minor access ⟨ty.toU32, major, minor⟩ = none) ∧
    (access ≠ 0 →
      set_permission m ty major minor access ⟨ty.toU32, major, minor⟩ = some access) := by
  constructor
  · intro h
    simp [set_permission, h, DevMap.remove]
  · intro h
    simp [set_permission, h, DevMap.insert]

/-- Witness for C6: granting mask 7 to char 189:0 stores exactly 7; granting
the empty mask removes the entry. -/
theorem set_permission_post_witness :
    set_permission (fun _ => none) .Character 189 0 7 ⟨2, 189, 0⟩ = some 7 ∧
    set_permission (fun k => if k = ⟨2, 189, 0⟩ then some 7 else none)
      .Character 189 0 0 ⟨2, 189, 0⟩ = none := by
  constructor
  · exact (set_permission_post (fun _ => none) .Character 189 0 7).2 (by decide)
  · exact (set_permission_post (fun k => if k = ⟨2, 189, 0⟩ then some 7 else none)
      .Character 189 0 0).1 rfl

/-! ## Attachment protocol of `DeviceAccessControllerV2::new` (src/cgroup.rs)

The constructor's externally visible steps, in source order: open the cgroup
directory, load its own eBPF program, query (without detaching) the programs
already attached to the cgroup, attach its own program, remove a stale pin,
pin its program, detach each previously attached program, take the map.
-/

/-- One step of the `DeviceAccessControllerV2::new` attachment protocol. -/
inductive AttachStep
  | openCgroup
  | loadProgram
  | queryExisting
  | attachOwn
  | removeStalePin
  | pinProgram
  | detachExisting (i : Nat)
  | takeMap
deriving DecidableEq, Repr

/-- The step sequence performed by `DeviceAccessControllerV2::new`
(src/cgroup.rs lines 131-179) for a cgroup with `n` previously attached
programs: the query wraps the handles in `ManuallyDrop`, its own program is
attached and pinned, and only then is each held handle detached. -/
def v2_new_steps (n : Nat) : List AttachStep :=
  [.openCgroup, .loadProgram, .queryExisting, .attachOwn, .removeStalePin,
    .pinProgram] ++ (List.range n).map AttachStep.detachExisting ++ [.takeMap]

/-- Effect of one protocol step on the number of device-filter programs
attached to the cgroup. -/
def stepAttached (c : Nat) : AttachStep → Nat
  | .attachOwn => c + 1
  | .detachExisting _ => c - 1
  | _ => c

/-- Number of device-filter programs attached to the cgroup after the first
`k` steps of the protocol, starting from the `n` pre-existing programs. -/
def attachedAfter (n k : Nat) : Nat :=
  ((v2_new_steps n).take k).foldl stepAttached n

lemma foldl_stepAttached_detach (l : List Nat) (c : Nat) :
    (l.map AttachStep.detachExisting).foldl stepAttached c = c - l.length := by
  induction l generalizing c with
  | nil => simp
  | cons x xs ih =>
    simp only [List.map_cons, List.foldl_cons, List.length_cons]
    rw [ih]
    simp only [stepAttached]
    omega

lemma foldl_stepAttached_takeMap (c k : Nat) :
    (([AttachStep.takeMap] : List AttachStep).take k).foldl stepAttached c = c := by
  cases k with
  | zero => simp
  | succ k => simp [List.take, stepAttached]

/-- C2: in the cgroup-v2 driver construction, the driver's own program is
attached (step 3) and pinned (step 5) strictly before any previously
attached program is detached, and (given the cgroup started with at least
one attached program) at every point of the protocol at least one device
filter is attached to the cgroup. -/
theorem v2_new_attach_before_detach (n : Nat) :
    ((v2_new_steps n)[3]? = some AttachStep.attachOwn) ∧
    ((v2_new_steps n)[5]? = some AttachStep.pinProgram) ∧
    (∀ i j, (v2_new_steps n)[i]? = some (AttachStep.detachExisting j) → 5 < i) ∧
    (1 ≤ n → ∀ k, 1 ≤ attachedAfter n k) := by
  refine ⟨by simp [v2_new_steps], by simp [v2_new_steps], ?_, ?_⟩
  · intro i j h
    by_contra h'
    push_neg at h'
    interval_cases i <;> simp [v2_new_steps] at h
  · intro hn k
    unfold attachedAfter v2_new_steps
    match k, hn with
    | 0, hn => simpa using hn
    | 1, hn => simpa [stepAttached] using hn
    | 2, hn => simpa [stepAttached] using hn
    | 3, hn => simpa [stepAttached] using hn
    | 4, hn => simp [stepAttached]
    | 5, hn => simp [stepAttached]
    | 6, hn => simp [stepAttached]
    | (m + 7), hn =>
      rw [List.take_append_eq_append_take]
      rw [List.foldl_append]
      rw [List.take_append_eq_append_take]
      rw [List.foldl_append]
      have h6 : ([AttachStep.openCgroup, .loadProgram, .queryExisting, .attachOwn,
          .removeStalePin, .pinProgram].take (m + 7)) =
          [AttachStep.openCgroup, .loadProgram, .queryExisting, .attachOwn,
          .removeStalePin, .pinProgram] := by
        apply List.take_of_length_le
        simp
      rw [h6]
      have hpre : List.foldl stepAttached n
          [AttachStep.openCgroup, .loadProgram, .queryExisting, .attachOwn,
          .removeStalePin, .pinProgram] = n + 1 := by
        simp [stepAttached]
      rw [hpre]
      rw [← List.map_take]
      rw [foldl_stepAttached_detach]
      rw [foldl_stepAttached_takeMap]
      simp only [List.length_take, List.length_range, List.length_cons,
        List.length_nil, List.length_append, List.length_map]
      omega

/-- Witness for C2: with one pre-existing program, the attach step precedes
the detach steps and the cgroup is never left without a filter (sampled at
step 7, right after the single detach). -/
theorem v2_new_attach_before_detach_witness :
    ((v2_new_steps 1)[3]? = some AttachStep.attachOwn) ∧
    (1 ≤ attachedAfter 1 7) := by
  refine ⟨(v2_new_attach_before_detach 1).1, ?_⟩
  exact (v2_new_attach_before_detach 1).2.2.2 (by decide) 7

/-! ## Supervisor exit codes (C3)

The docker-generation supervisor entry point — the consumer of
`Run::root_unplugged_exit_code` declared in src/cli/mod.rs lines 71-73 — is
not among the sources; only its CLI declaration and the event loop of
src/main.rs are.  The exit-code mapping is therefore modelled from the
specification.
-/

/-- Outcome of a supervisor run, as distinguished by the specification. -/
inductive SupervisorOutcome
  | containerExit (status : Nat)
  | rootUnplugged
  | internalError
deriving DecidableEq, Repr

/-- Modelled from the spec: the supervisor's exit-code mapping (missing
docker-generation main; spec §4.6 "Termination and exit code" and §6 "Exit
codes").  The container's own status is truncated to `u8`; a collision with
the configured root-unplugged code is rewritten to 1; removal of a required
device yields the configured code; supervisor-internal failures yield 125. -/
def supervisor_exit_code (rootUnpluggedCode : Nat) : SupervisorOutcome → Nat
  | .rootUnplugged => rootUnpluggedCode
  | .containerExit status =>
    let truncated := status % 256
    if truncated = rootUnpluggedCode then 1 else truncated
  | .internalError => 125

/-- C3: the supervisor returns the configured root-unplugged code when a
required device was removed, the container's own status truncated to `u8`
(with 1 substituted on collision with the root-unplugged code) when the
container exited by itself, and 125 on supervisor-internal failure. -/
theorem supervisor_exit_code_spec (rootUnpluggedCode status : Nat) :
    supervisor_exit_code rootUnpluggedCode .rootUnplugged = rootUnpluggedCode ∧
    supervisor_exit_code rootUnpluggedCode (.containerExit status) =
      (if status % 256 = rootUnpluggedCode then 1 else status % 256) ∧
    supervisor_exit_code rootUnpluggedCode .internalError = 125 :=
  ⟨rfl, rfl, rfl⟩

/-! ## Id-map translation (src/util/namespace.rs)

`IdMap::translate` walks the parsed `uid_map`/`gid_map` lines
`(inside, outside, count)` in order.  All values are `u32`; the source's
`checked_add` calls are modelled as explicit bound checks against `2^32`.
Note the `?` on `inside.checked_add(count)` aborts the whole walk, and the
range `inside..inside+count` is half-open.
-/

/-- `IdMap::translate` (src/util/namespace.rs lines 31-38). -/
def translate : List (Nat × Nat × Nat) → Nat → Option Nat
  | [], _ => none
  | (inside, outside, count) :: rest, id =>
    if 4294967296 ≤ inside + count then
      none
    else if inside ≤ id ∧ id < inside + count then
      if 4294967296 ≤ id - inside + outside then none
      else some (id - inside + outside)
    else translate rest id

/-- The identity id-map, `0 0 4294967295`, as written by the kernel for a
process outside any user namespace (compare `MntNamespace::in_user_ns`). -/
def identityIdMap : List (Nat × Nat × Nat) := [(0, 0, 4294967295)]

lemma translate_at_first_cover (map : List (Nat × Nat × Nat)) (id : Nat) :
    ∀ (i : Nat) (inside outside count : Nat),
    map[i]? = some (inside, outside, count) →
    (∀ j : Nat, j < i → ∀ e : Nat × Nat × Nat, map[j]? = some e →
      e.1 + e.2.2 < 4294967296 ∧ ¬ (e.1 ≤ id ∧ id < e.1 + e.2.2)) →
    inside + count < 4294967296 →
    inside ≤ id → id < inside + count →
    translate map id =
      if 4294967296 ≤ id - inside + outside then none
      else some (id - inside + outside) := by
  induction map with
  | nil => intro i inside outside count h; simp at h
  | cons hd rest ih =>
    intro i inside outside count h hpre hover hlo hhi
    match i with
    | 0 =>
      simp only [List.getElem?_cons_zero, Option.some.injEq] at h
      subst h
      unfold translate
      rw [if_neg (by omega)]
      rw [if_pos ⟨hlo, hhi⟩]
    | i' + 1 =>
      simp only [List.getElem?_cons_succ] at h
      have hhd := hpre 0 (by omega) hd (by simp)
      obtain ⟨a, b, c⟩ := hd
      unfold translate
      rw [if_neg (by simp only at hhd; omega)]
      rw [if_neg (by simp only at hhd; exact hhd.2)]
      exact ih i' inside outside count h
        (fun j hj e he => hpre (j + 1) (by omega) e (by simpa using he))
        hover hlo hhi

lemma translate_none_of_no_cover (map : List (Nat × Nat × Nat)) (id : Nat)
    (hover : ∀ e ∈ map, e.1 + e.2.2 < 4294967296)
    (hmiss : ∀ e ∈ map, ¬ (e.1 ≤ id ∧ id < e.1 + e.2.2)) :
    translate map id = none := by
  induction map with
  | nil => rfl
  | cons hd rest ih =>
    obtain ⟨a, b, c⟩ := hd
    have h1 := hover (a, b, c) (by simp)
    have h2 := hmiss (a, b, c) (by simp)
    simp only at h1 h2
    unfold translate
    rw [if_neg (by omega)]
    rw [if_neg h2]
    exact ih (fun e he => hover e (by simp [he])) (fun e he => hmiss e (by simp [he]))

/-- Counterexample for C7 as stated: the identity map `0 0 4294967295` does
NOT translate every id to itself — `u32::MAX` itself lies outside the
half-open range `0..4294967295` and translation fails. -/
theorem translate_identity_counterexample :
    translate identityIdMap 4294967295 = none ∧
    translate identityIdMap 4294967295 ≠ some 4294967295 := by
  constructor
  · decide
  · decide

/-- C7 (amended): translation is piecewise on the first covering line.  If
line `i` is the first line covering `id`, no line up to `i` overflows
`inside + count`, and `id - inside + outside` fits in `u32`, then
`translate id = id - inside + outside`; if the translated value overflows
the result is an error; an id covered by no line is an error; the identity
map translates every id except `u32::MAX` (an error) to itself; and the map
`(0,1000,65536)` translates 0 to 1000, 65535 to 66535 and fails for 65536. -/
theorem translate_piecewise :
    (∀ (map : List (Nat × Nat × Nat)) (id i inside outside count : Nat),
      map[i]? = some (inside, outside, count) →
      (∀ j : Nat, j < i → ∀ e : Nat × Nat × Nat, map[j]? = some e →
        e.1 + e.2.2 < 4294967296 ∧ ¬ (e.1 ≤ id ∧ id < e.1 + e.2.2)) →
      inside + count < 4294967296 →
      inside ≤ id → id < inside + count →
      id - inside + outside < 4294967296 →
      translate map id = some (id - inside + outside)) ∧
    (∀ (map : List (Nat × Nat × Nat)) (id i inside outside count : Nat),
      map[i]? = some (inside, outside, count) →
      (∀ j : Nat, j < i → ∀ e : Nat × Nat × Nat, map[j]? = some e →
        e.1 + e.2.2 < 4294967296 ∧ ¬ (e.1 ≤ id ∧ id < e.1 + e.2.2)) →
      inside + count < 4294967296 →
      inside ≤ id → id < inside + count →
      4294967296 ≤ id - inside + outside →
      translate map id = none) ∧
    (∀ (map : List (Nat × Nat × Nat)) id,
      (∀ e ∈ map, e.1 + e.2.2 < 4294967296) →
      (∀ e ∈ map, ¬ (e.1 ≤ id ∧ id < e.1 + e.2.2)) →
      translate map id = none) ∧
    (∀ id, id < 4294967295 → translate identityIdMap id = some id) ∧
    (translate [(0, 1000, 65536)] 0 = some 1000 ∧
      translate [(0, 1000, 65536)] 65535 = some 66535 ∧
      translate [(0, 1000, 65536)] 65536 = none) := by
  refine ⟨?_, ?_, translate_none_of_no_cover, ?_, by decide, by decide, by decide⟩
  · intro map id i inside outside count h hpre hover hlo hhi hfit
    rw [translate_at_first_cover map id i inside outside count h hpre hover hlo hhi]
    rw [if_neg (by omega)]
  · intro map id i inside outside count h hpre hover hlo hhi hfit
    rw [translate_at_first_cover map id i inside outside count h hpre hover hlo hhi]
    rw [if_pos hfit]
  · intro id hid
    have h := translate_at_first_cover identityIdMap id 0 0 0 4294967295
      (by simp [identityIdMap]) (fun j hj => by omega) (by omega) (by omega) (by omega)
    simp only [Nat.sub_zero, Nat.add_zero] at h
    rw [h, if_neg (by omega)]

/-- Witness for C7: the map `0 1000 65536` translates id 7 to 1007 through
the piecewise rule, and the identity map translates 1000 to itself. -/
theorem translate_piecewise_witness :
    translate [(0, 1000, 65536)] 7 = some 1007 ∧
    translate identityIdMap 1000 = some 1000 := by
  constructor
  · exact translate_piecewise.1 [(0, 1000, 65536)] 7 0 0 1000 65536
      (by simp) (fun j hj => by omega) (by omega) (by omega) (by omega) (by omega)
  · exact translate_piecewise.2.2.2.1 1000 (by omega)

/-! ## The create-flow parent process (src/main.rs)

After forking, the parent reads a single byte from the pipe shared with the
child (src/main.rs lines 228-241).  `read` returning 0 means EOF: the child
exited before notifying, and the parent exits with the child's status,
`unwrap_or(1)`.  Otherwise the byte arrived and `do_main` falls through to
`Ok(())`, which `main` maps to exit code 0.
-/

/-- Exit code of the parent as a function of the `read` return value on the
1-byte buffer and the child's join status (when available). -/
def parent_exit_code (readResult : Nat) (childCode : Option Nat) : Nat :=
  if readResult = 0 then childCode.getD 1 else 0

/-- C8: reading EOF (0 bytes) before the notification byte makes the parent
exit with the child's exit status, 1 when unavailable; reading the byte
makes it exit 0. -/
theorem parent_read_protocol (c r : Nat) (oc : Option Nat) :
    parent_exit_code 0 none = 1 ∧
    parent_exit_code 0 (some c) = c ∧
    (r ≠ 0 → parent_exit_code r oc = 0) := by
  refine ⟨rfl, rfl, ?_⟩
  intro h
  simp [parent_exit_code, h]

/-- Witness for C8: EOF with child status 3 exits 3; a received byte
(read = 1) exits 0. -/
theorem parent_read_protocol_witness :
    parent_exit_code 0 (some 3) = 3 ∧ parent_exit_code 1 none = 0 := by
  refine ⟨(parent_read_protocol 3 1 none).2.1, ?_⟩
  exact (parent_read_protocol 3 1 none).2.2 (by decide)

/-! ## Container handle construction (src/runc/container.rs)

`Container::new` records the primary UID/GID from `config.process.user` and
the init PID from the runtime state.  The pure, config/state-determined
error conditions are: the unified cgroup path having no usable leaf name, a
cgroup-v1 devices path being present, and the PID failing the
`u32 -> i32 -> Pid` conversion (zero or above `i32::MAX`).  IO failures
(opening cgroup.events, loading the eBPF filter, the /dev remount) are
outside the model; none of them inspects uid or gid.
-/

/-- `User` from src/runc/config.rs lines 7-12. -/
structure User where
  uid : Nat
  gid : Nat
deriving DecidableEq, Repr

/-- `Process` from src/runc/config.rs. -/
structure OciProcess where
  user : User
deriving DecidableEq, Repr

/-- `Config` from src/runc/config.rs (annotations are not needed here). -/
structure Config where
  process : OciProcess
deriving DecidableEq, Repr

/-- `State` from src/runc/state.rs: init PID, the leaf file name of the
unified cgroup path (`none` when the path has no usable file name), and the
optional cgroup-v1 devices path. -/
structure RuncState where
  init_process_pid : Nat
  cgroup_unified_leaf : Option String
  cgroup_devices : Option String
deriving DecidableEq, Repr

/-- The fields of `Container` (src/runc/container.rs) that construction
derives from config and state. -/
structure Container where
  uid : Nat
  gid : Nat
  pid : Nat
deriving DecidableEq, Repr

/-- `Container::new` (src/runc/container.rs lines 77-124), restricted to its
config/state-determined behaviour: leaf-name check, cgroup-v1 rejection, PID
conversion, and the verbatim recording of `config.process.user`. -/
def Container.new (config : Config) (state : RuncState) : Except String Container :=
  match state.cgroup_unified_leaf with
  | none => .error "cgroup doesn't have file name"
  | some _ =>
    if state.cgroup_devices.isSome then .error "cgroupv1 is no longer supported"
    else if state.init_process_pid = 0 ∨ 2147483647 < state.init_process_pid then
      .error "Invalid PID"
    else .ok ⟨config.process.user.uid, config.process.user.gid, state.init_process_pid⟩

/-- A bundle config whose uid and gid both equal `u32::MAX`. -/
def configUidMax : Config := ⟨⟨⟨4294967295, 4294967295⟩⟩⟩

/-- A nominal runtime state: PID 1, a well-formed cgroup leaf, no v1 path. -/
def stateNominal : RuncState := ⟨1, some "ct-id.scope", none⟩

/-- Counterexample for C9 as stated: construction does NOT reject
`u32::MAX` — with uid = gid = 4294967295 it succeeds and records the values
unchanged. -/
theorem container_new_uid_max_accepted :
    Container.new configUidMax stateNominal = .ok ⟨4294967295, 4294967295, 1⟩ ∧
    ∀ e, Container.new configUidMax stateNominal ≠ .error e := by
  have h : Container.new configUidMax stateNominal = .ok ⟨4294967295, 4294967295, 1⟩ := by
    unfold Container.new configUidMax stateNominal
    norm_num
  exact ⟨h, fun e he => by rw [h] at he; cases he⟩

/-- C9 (amended): construction records the primary UID and GID verbatim from
`config.process.user` (and the PID from the state); it performs no
validation of uid/gid, so success or failure is independent of their
values — in particular `u32::MAX` is not rejected. -/
theorem container_new_records_verbatim :
    (∀ config state c, Container.new config state = .ok c →
      c.uid = config.process.user.uid ∧ c.gid = config.process.user.gid ∧
      c.pid = state.init_process_pid) ∧
    (∀ u g u' g' state,
      (Container.new ⟨⟨⟨u, g⟩⟩⟩ state).isOk = (Container.new ⟨⟨⟨u', g'⟩⟩⟩ state).isOk) := by
  constructor
  · intro config state c h
    obtain ⟨pid, uleaf, devs⟩ := state
    rcases uleaf with _ | leaf
    · cases h
    · rcases devs with _ | d
      · unfold Container.new at h
        simp only [Option.isSome_none, Bool.false_eq_true, if_false] at h
        split at h
        · cases h
        · rw [Except.ok.injEq] at h
          subst h
          exact ⟨rfl, rfl, rfl⟩
      · unfold Container.new at h
        simp only [Option.isSome_some, if_true] at h
        cases h
  · intro u g u' g' state
    obtain ⟨pid, uleaf, devs⟩ := state
    rcases uleaf with _ | leaf
    · rfl
    · rcases devs with _ | d
      · unfold Container.new
        simp only [Option.isSome_none, Bool.false_eq_true, if_false]
        split <;> rfl
      · rfl

/-- Witness for C9 (amended): a config with uid 1000, gid 100 yields a
handle recording exactly those values. -/
theorem container_new_records_verbatim_witness :
    Container.new ⟨⟨⟨1000, 100⟩⟩⟩ stateNominal = .ok ⟨1000, 100, 1⟩ ∧
    (Container.new ⟨⟨⟨1000, 100⟩⟩⟩ stateNominal).isOk
      = (Container.new ⟨⟨⟨4294967295, 0⟩⟩⟩ stateNominal).isOk := by
  constructor
  · have h : Container.new ⟨⟨⟨1000, 100⟩⟩⟩ stateNominal = .ok ⟨1000, 100, 1⟩ := by
      unfold Container.new stateNominal
      norm_num
    have := container_new_records_verbatim.1 ⟨⟨⟨1000, 100⟩⟩⟩ stateNominal ⟨1000, 100, 1⟩ h
    exact h
  · exact container_new_records_verbatim.2 1000 100 4294967295 0 stateNominal

/-! ## Cgroup-events watching (src/runc/container.rs)

`CgroupEventNotifier::populated` re-reads `cgroup.events`; a failed seek or
a failed line read is interpreted as "the cgroup has been deleted, hence no
longer populated" and returns `Ok(false)` instead of an error.  The file is
modelled as a seek outcome plus the line-read outcomes (`none` for an IO
error on that line). -/

/-- One observable state of the `cgroup.events` file: whether the initial
seek succeeds, and the sequence of line reads (`none` = read error). -/
structure CgroupEventsFile where
  seek_ok : Bool
  lines : List (Option String)
deriving DecidableEq, Repr

/-- The line loop of `CgroupEventNotifier::populated` (src/runc/container.rs
lines 35-45): a read error yields `Ok(false)`; the first `populated ` line
decides by its last character; a missing field is an error. -/
def populated_lines : List (Option String) → Except String Bool
  | [] => .error "Cannot find populated field"
  | none :: _ => .ok false
  | some line :: rest =>
    if line.startsWith "populated " then .ok (line.endsWith "1")
    else populated_lines rest

/-- `CgroupEventNotifier::populated` (src/runc/container.rs lines 30-46):
a failed seek yields `Ok(false)`. -/
def populated (f : CgroupEventsFile) : Except String Bool :=
  if f.seek_ok then populated_lines f.lines else .ok false

/-- `CgroupEventNotifier::wait` (src/runc/container.rs lines 48-63) over the
sequence of file states observed at each readiness event: `some (.ok ())`
when it resolves, `some (.error e)` when `populated` errors, `none` when the
modelled readiness sequence is exhausted while still populated. -/
def cgroup_wait (f : CgroupEventsFile) (rest : List CgroupEventsFile) :
    Option (Except String Unit) :=
  match populated f, rest with
  | .error e, _ => some (.error e)
  | .ok false, _ => some (.ok ())
  | .ok true, [] => none
  | .ok true, g :: gs => cgroup_wait g gs

/-- C10: a failed seek or a failed line read makes `populated` return
`Ok(false)` rather than an error, and consequently `wait` resolves
successfully (in particular on a deleted cgroup whose file can no longer be
seeked), not only when a `populated 0` line is observed. -/
theorem populated_error_tolerance :
    (∀ lines, populated ⟨false, lines⟩ = .ok false) ∧
    (∀ preLines rest,
      (∀ l ∈ preLines, ∃ s, l = some s ∧ s.startsWith "populated " = false) →
      populated ⟨true, preLines ++ none :: rest⟩ = .ok false) ∧
    (∀ f rest, populated f = .ok false → cgroup_wait f rest = some (.ok ())) ∧
    (∀ rest, cgroup_wait ⟨false, []⟩ rest = some (.ok ())) := by
  refine ⟨fun lines => rfl, ?_, ?_, ?_⟩
  · intro preLines rest h
    show populated_lines (preLines ++ none :: rest) = .ok false
    induction preLines with
    | nil => rfl
    | cons l ls ih =>
      obtain ⟨s, hl, hs⟩ := h l (by simp)
      subst hl
      rw [List.cons_append, populated_lines, hs]
      simp only [Bool.false_eq_true, if_false]
      exact ih (fun l' hl' => h l' (by simp [hl']))
  · intro f rest h
    rw [cgroup_wait.eq_def, h]
  · intro rest
    rw [cgroup_wait.eq_def]
    rw [show populated ⟨false, []⟩ = .ok false from rfl]

/-- Witness for C10: a file with a read error on its first line is reported
unpopulated, and `wait` on a deleted (unseekable) cgroup resolves. -/
theorem populated_error_tolerance_witness :
    populated ⟨true, [none]⟩ = .ok false ∧
    cgroup_wait ⟨true, [none]⟩ [] = some (.ok ()) := by
  have h1 : populated ⟨true, ([] : List (Option String)) ++ none :: []⟩ = .ok false :=
    populated_error_tolerance.2.1 [] [] (fun l hl => by simp at hl)
  refine ⟨by simpa using h1, ?_⟩
  exact populated_error_tolerance.2.2.1 ⟨true, [none]⟩ [] (by simpa using h1)

/-! ## Uevent sender (src/hotplug/kobject_uevent.rs)

`UdevSender::send` serialises a libudev-compatible netlink message: a 40
byte header (`MonitorNetlinkHeader`, native little-endian layout) followed
by the NUL-terminated `KEY=VALUE` property records, the first two always
being the regenerated `ACTION` and `SEQNUM`.  Strings are modelled as byte
lists; the MurmurHash2 used for the filter hashes is abstracted as a
parameter (the claims do not constrain its value).
-/

/-- Little-endian serialisation of a `u32` field of the header. -/
def u32le (n : Nat) : List Nat :=
  [n % 256, n / 256 % 256, n / 65536 % 256, n / 16777216 % 256]

/-- `u32::to_be` on a little-endian host: byte-swap of a `u32` value. -/
def to_be32 (n : Nat) : Nat :=
  (n % 256) * 16777216 + (n / 256 % 256) * 65536 +
    (n / 65536 % 256) * 256 + n / 16777216 % 256

/-- ASCII decimal digits of a number, as produced by Rust's `Display`. -/
def asciiDec (n : Nat) : List Nat := (Nat.toDigits 10 n).map Char.toNat

/-- The bytes of `"libudev\0"`, the prefix field of the header. -/
def libudevHeaderBytes : List Nat := [108, 105, 98, 117, 100, 101, 118, 0]

/-- The bytes of `"ACTION"`. -/
def actionBytes : List Nat := [65, 67, 84, 73, 79, 78]

/-- The bytes of `"SEQNUM"`. -/
def seqnumBytes : List Nat := [83, 69, 81, 78, 85, 77]

/-- The byte of `'='`. -/
def eqByte : Nat := 61

/-- The byte of `'\0'`. -/
def nulByte : Nat := 0

/-- The parts of a udev `Device` that `UdevSender::send` reads: subsystem,
devtype and the property bag, all as byte strings. -/
structure UdevDeviceModel where
  subsystem : Option (List Nat)
  devtype : Option (List Nat)
  properties : List (List Nat × List Nat)
deriving DecidableEq, Repr

/-- `UdevSender` state: the per-instance sequence counter (`seq_num: u64`,
0 at construction in `UdevSender::new`). -/
structure UdevSender where
  seq_num : Nat
deriving DecidableEq, Repr

/-- A fresh sender, `UdevSender::new`: `seq_num = 0`. -/
def UdevSender.new : UdevSender := ⟨0⟩

/-- The `MonitorNetlinkHeader` struct serialised in its native
little-endian layout: prefix, magic (stored big-endian), header size 40,
properties offset 40, properties length, the two filter hashes (stored
big-endian, 0 when absent), and the all-ones tag blooms. -/
def mkHeader (propertiesLen subsystemHash devtypeHash : Nat) : List Nat :=
  libudevHeaderBytes ++ u32le (to_be32 0xFEEDCAFE) ++ u32le 40 ++ u32le 40 ++
    u32le propertiesLen ++ u32le subsystemHash ++ u32le devtypeHash ++
    u32le 0xFFFFFFFF ++ u32le 0xFFFFFFFF

/-- The properties block built by `UdevSender::send`: the regenerated
`ACTION=<event>\0SEQNUM=<seq>\0` records followed by every device property
whose name is neither `ACTION` nor `SEQNUM` (those are specially handled
and skipped), each as `name=value\0`. -/
def mkProperties (seq : Nat) (event : List Nat) (device : UdevDeviceModel) : List Nat :=
  actionBytes ++ [eqByte] ++ event ++ [nulByte] ++
    seqnumBytes ++ [eqByte] ++ asciiDec seq ++ [nulByte] ++
    (device.properties.filter
      (fun p => decide (p.1 ≠ actionBytes ∧ p.1 ≠ seqnumBytes))).foldr
      (fun p acc => p.1 ++ [eqByte] ++ p.2 ++ [nulByte] ++ acc) []

/-- `UdevSender::send` (src/hotplug/kobject_uevent.rs lines 64-116):
increments `seq_num`, builds the properties block and the header, and emits
their concatenation.  `hashFn` abstracts `murmur2::murmur2ne` with seed 0. -/
def UdevSender.send (hashFn : List Nat → Nat) (s : UdevSender)
    (device : UdevDeviceModel) (event : List Nat) : List Nat × UdevSender :=
  let seq := s.seq_num + 1
  let properties := mkProperties seq event device
  let header := mkHeader properties.length
    (match device.subsystem with
     | some x => to_be32 (hashFn x)
     | none => 0)
    (match device.devtype with
     | some x => to_be32 (hashFn x)
     | none => 0)
  (header ++ properties, ⟨seq⟩)

/-- Iterated sends from one sender instance, returning the emitted
messages in order. -/
def UdevSender.sendAll (hashFn : List Nat → Nat) (s : UdevSender) :
    List (UdevDeviceModel × List Nat) → List (List Nat)
  | [] => []
  | (d, e) :: rest =>
    (UdevSender.send hashFn s d e).1 ::
      UdevSender.sendAll hashFn (UdevSender.send hashFn s d e).2 rest

/-- Default input used with `List.getD` over send inputs. -/
def dfltInput : UdevDeviceModel × List Nat := (⟨none, none, []⟩, [])

lemma sendAll_getD (hashFn : List Nat → Nat)
    (inputs : List (UdevDeviceModel × List Nat)) :
    ∀ (s : UdevSender) (i : Nat), i < inputs.length →
    (UdevSender.sendAll hashFn s inputs).getD i [] =
      (UdevSender.send hashFn ⟨s.seq_num + i⟩
        (inputs.getD i dfltInput).1 (inputs.getD i dfltInput).2).1 := by
  induction inputs with
  | nil => intro s i h; simp at h
  | cons x rest ih =>
    intro s i h
    obtain ⟨d, e⟩ := x
    match i with
    | 0 => rfl
    | i' + 1 =>
      show (UdevSender.sendAll hashFn ⟨s.seq_num + 1⟩ rest).getD i' [] = _
      rw [ih ⟨s.seq_num + 1⟩ i' (by simpa using h)]
      rw [show s.seq_num + 1 + i' = s.seq_num + (i' + 1) by omega]
      rfl

/-- C5: every message emitted by `UdevSender::send` starts with the 8-byte
prefix `"libudev\0"`; has the magic `0xFEEDCAFE` in network byte order at
offset 8; has header size and properties offset both 40; its properties
block (at offset 40) starts with `ACTION=<event>\0SEQNUM=<seq>\0` followed
by the device properties with any caller-supplied ACTION/SEQNUM dropped;
the counter advances by one per send; and across successive sends from one
fresh sender the SEQNUM of the i-th message is `i + 1`, so SEQNUM strictly
increases starting at 1. -/
theorem udev_send_format (hashFn : List Nat → Nat) (s : UdevSender)
    (device : UdevDeviceModel) (event : List Nat) :
    ((UdevSender.send hashFn s device event).1.take 8 = libudevHeaderBytes) ∧
    (((UdevSender.send hashFn s device event).1.drop 8).take 4 =
      [0xFE, 0xED, 0xCA, 0xFE]) ∧
    (((UdevSender.send hashFn s device event).1.drop 12).take 4 = u32le 40) ∧
    (((UdevSender.send hashFn s device event).1.drop 16).take 4 = u32le 40) ∧
    ((UdevSender.send hashFn s device event).1.drop 40 =
      actionBytes ++ [eqByte] ++ event ++ [nulByte] ++
        seqnumBytes ++ [eqByte] ++ asciiDec (s.seq_num + 1) ++ [nulByte] ++
        (device.properties.filter
          (fun p => decide (p.1 ≠ actionBytes ∧ p.1 ≠ seqnumBytes))).foldr
          (fun p acc => p.1 ++ [eqByte] ++ p.2 ++ [nulByte] ++ acc) []) ∧
    ((UdevSender.send hashFn s device event).2.seq_num = s.seq_num + 1) ∧
    (∀ (inputs : List (UdevDeviceModel × List Nat)) (i : Nat), i < inputs.length →
      ((UdevSender.sendAll hashFn UdevSender.new inputs).getD i []).drop 40 =
        mkProperties (i + 1) (inputs.getD i dfltInput).2 (inputs.getD i dfltInput).1) := by
  refine ⟨rfl, rfl, rfl, rfl, rfl, rfl, ?_⟩
  intro inputs i h
  rw [sendAll_getD hashFn inputs UdevSender.new i h]
  rw [show UdevSender.new.seq_num + i = i from Nat.zero_add i]
  rfl

/-- Witness for C5: a concrete send of an `add` event for a device carrying
a caller-supplied ACTION property: the prefix, magic, offsets, regenerated
properties and the SEQNUM of the first two messages evaluate as stated. -/
theorem udev_send_format_witness :
    ((UdevSender.send (fun _ => 0) ⟨0⟩ ⟨none, none, [(actionBytes, [97])]⟩
        [97, 100, 100]).1.take 8 = libudevHeaderBytes) ∧
    ((UdevSender.send (fun _ => 0) ⟨0⟩ ⟨none, none, [(actionBytes, [97])]⟩
        [97, 100, 100]).1.drop 40 =
      actionBytes ++ [eqByte] ++ [97, 100, 100] ++ [nulByte] ++
        seqnumBytes ++ [eqByte] ++ [49] ++ [nulByte]) ∧
    ((UdevSender.sendAll (fun _ => 0) UdevSender.new
        [(⟨none, none, []⟩, [97, 100, 100]), (⟨none, none, []⟩, [97, 100, 100])]).getD
        1 []).drop 40 =
      mkProperties 2 [97, 100, 100] ⟨none, none, []⟩ := by
  have h := udev_send_format (fun _ => 0) ⟨0⟩ ⟨none, none, [(actionBytes, [97])]⟩
    [97, 100, 100]
  refine ⟨h.1, ?_, ?_⟩
  · rw [h.2.2.2.2.1]
    decide
  · have h2 := udev_send_format (fun _ => 0) ⟨0⟩ ⟨none, none, []⟩ []
    exact h2.2.2.2.2.2.2
      [(⟨none, none, []⟩, [97, 100, 100]), (⟨none, none, []⟩, [97, 100, 100])]
      1 (by decide)

/-! ## Device enumerator & monitor (src/dev/monitor.rs)

`DeviceMonitor::new` opens the netlink socket first, then enumerates
devices under the root syspath; the enumerated devices are queued and
recorded in the `seen` map.  `try_read` serves the enumeration queue first
and then the socket, suppressing duplicate `Add`s and serving `Remove`
from the cache.  Syspaths are path-component lists (`Path::starts_with`
compares whole components). -/

/-- A udev device as cached by the monitor: syspath components and devnum. -/
structure UDevice where
  syspath : List String
  devnum : Nat × Nat
deriving DecidableEq, Repr

/-- The event type of a raw socket event (udev's `EventType`). -/
inductive UEventType
  | add
  | remove
  | other
deriving DecidableEq, Repr

/-- One raw event readable from the udev monitor socket. -/
structure UdevSocketEvent where
  etype : UEventType
  device : UDevice
deriving DecidableEq, Repr

/-- `DeviceEvent` from src/dev/monitor.rs lines 18-21. -/
inductive DeviceEvent
  | Add (d : UDevice)
  | Remove (d : UDevice)
deriving DecidableEq, Repr

/-- Lookup in the `seen` map (a `HashMap<PathBuf, Device>` with unique
keys, modelled as an association list). -/
def lookupSeen (k : List String) : List (List String × UDevice) → Option UDevice
  | [] => none
  | p :: rest => if p.1 = k then some p.2 else lookupSeen k rest

/-- Removal from the `seen` map (`HashMap::remove`). -/
def eraseSeen (k : List String) :
    List (List String × UDevice) → List (List String × UDevice)
  | [] => []
  | p :: rest => if p.1 = k then rest else p :: eraseSeen k rest

/-- The key list of the `seen` map. -/
def keysOf (seen : List (List String × UDevice)) : List (List String) :=
  seen.map Prod.fst

/-- `DeviceMonitor` state (src/dev/monitor.rs lines 23-35): monitored root,
pending socket events, the `seen` map, and the enumeration queue. -/
structure DeviceMonitor where
  root : List String
  socket : List UdevSocketEvent
  seen : List (List String × UDevice)
  enumerated : List UDevice
deriving DecidableEq, Repr

/-- `DeviceMonitor::new` (src/dev/monitor.rs lines 41-64): the socket is
opened before enumerating (its pending events are a parameter), the scan is
filtered to devices under the root, and every enumerated device is recorded
in `seen`. -/
def DeviceMonitor.new (root : List String) (allDevices : List UDevice)
    (socket : List UdevSocketEvent) : DeviceMonitor :=
  let enumerated := allDevices.filter (fun d => root.isPrefixOf d.syspath)
  ⟨root, socket, enumerated.map (fun d => (d.syspath, d)), enumerated⟩

/-- The socket loop of `DeviceMonitor::try_read` (src/dev/monitor.rs lines
71-96): an under-root `Add` of an unseen syspath is emitted and recorded;
an `Add` of a seen syspath is suppressed (only logged); a `Remove` of a
seen syspath is emitted with the cached device and unrecorded; everything
else is skipped. -/
def readSocket (root : List String) :
    List UdevSocketEvent → List (List String × UDevice) →
    Option DeviceEvent × List UdevSocketEvent × List (List String × UDevice)
  | [], seen => (none, [], seen)
  | e :: rest, seen =>
    match e.etype with
    | .add =>
      if root.isPrefixOf e.device.syspath then
        match lookupSeen e.device.syspath seen with
        | some _ => readSocket root rest seen
        | none =>
          (some (.Add e.device), rest, (e.device.syspath, e.device) :: seen)
      else readSocket root rest seen
    | .remove =>
      match lookupSeen e.device.syspath seen with
      | some cached => (some (.Remove cached), rest, eraseSeen e.device.syspath seen)
      | none => readSocket root rest seen
    | .other => readSocket root rest seen

/-- `DeviceMonitor::try_read` (src/dev/monitor.rs lines 66-97): the
enumeration queue is served before the socket. -/
def DeviceMonitor.try_read (m : DeviceMonitor) :
    Option DeviceEvent × DeviceMonitor :=
  match m.enumerated with
  | d :: rest => (some (.Add d), ⟨m.root, m.socket, m.seen, rest⟩)
  | [] =>
    match readSocket m.root m.socket m.seen with
    | (r, socket', seen') => (r, ⟨m.root, socket', seen', []⟩)

/-- The stream of events produced by iterating `try_read` (the
`Stream::poll_next` impl), with fuel bounding the number of polls. -/
def DeviceMonitor.drain : Nat → DeviceMonitor → List DeviceEvent
  | 0, _ => []
  | fuel + 1, m =>
    match m.try_read with
    | (none, _) => []
    | (some e, m') => e :: DeviceMonitor.drain fuel m'

/-- The syspaths of the `Add` events of a trace. -/
def addSyspaths (l : List DeviceEvent) : List (List String) :=
  l.filterMap (fun e =>
    match e with
    | .Add d => some d.syspath
    | .Remove _ => none)

/-- Removal of the first occurrence of a syspath from the alive list. -/
def erasePath (k : List String) : List (List String) → List (List String)
  | [] => []
  | x :: rest => if x = k then rest else x :: erasePath k rest

/-- Every `Add` of the trace is of a syspath that is not currently alive,
where a `Remove` takes one occurrence of its syspath out of the alive set:
no second `Add` for a syspath without an intervening `Remove` of it. -/
def freshAdds (alive : List (List String)) : List DeviceEvent → Prop
  | [] => True
  | .Add d :: rest => d.syspath ∉ alive ∧ freshAdds (d.syspath :: alive) rest
  | .Remove d :: rest => freshAdds (erasePath d.syspath alive) rest

lemma lookupSeen_eq_none_iff (k : List String)
    (seen : List (List String × UDevice)) :
    lookupSeen k seen = none ↔ k ∉ keysOf seen := by
  induction seen with
  | nil => simp [lookupSeen, keysOf]
  | cons p rest ih =>
    rw [lookupSeen]
    by_cases h : p.1 = k
    · rw [if_pos h]
      simp only [keysOf, List.map_cons, List.mem_cons]
      constructor
      · intro hc; cases hc
      · intro hc; exact absurd (Or.inl h.symm) hc
    · rw [if_neg h, ih]
      simp only [keysOf, List.map_cons, List.mem_cons]
      constructor
      · intro hc hor
        rcases hor with h1 | h2
        · exact h h1.symm
        · exact hc h2
      · intro hc hm
        exact hc (Or.inr hm)

lemma lookupSeen_isSome_mem (k : List String)
    (seen : List (List String × UDevice))
    (h : (lookupSeen k seen).isSome) : k ∈ keysOf seen := by
  by_contra hk
  rw [← lookupSeen_eq_none_iff] at hk
  rw [hk] at h
  cases h

lemma keysOf_eraseSeen (k : List String) (seen : List (List String × UDevice)) :
    keysOf (eraseSeen k seen) = erasePath k (keysOf seen) := by
  induction seen with
  | nil => rfl
  | cons p rest ih =>
    by_cases h : p.1 = k
    · simp [eraseSeen, keysOf, erasePath, h]
    · simp only [eraseSeen, h, if_false, keysOf, List.map_cons, erasePath]
      exact congrArg (p.1 :: ·) ih

lemma erasePath_eq_erase (k : List String) (l : List (List String)) :
    erasePath k l = l.erase k := by
  induction l with
  | nil => rfl
  | cons x rest ih =>
    by_cases h : x = k
    · simp [erasePath, List.erase_cons, h]
    · simp [erasePath, List.erase_cons, h, ih]

lemma lookupSeen_mem (k : List String) (seen : List (List String × UDevice))
    (c : UDevice) (h : lookupSeen k seen = some c) : (k, c) ∈ seen := by
  induction seen with
  | nil => cases h
  | cons p rest ih =>
    rw [lookupSeen] at h
    by_cases hp : p.1 = k
    · rw [if_pos hp, Option.some.injEq] at h
      subst h
      subst hp
      exact List.mem_cons_self p rest
    · rw [if_neg hp] at h
      exact List.mem_cons_of_mem p (ih h)

lemma mem_eraseSeen_subset (k : List String) (seen : List (List String × UDevice))
    (p : List String × UDevice) (h : p ∈ eraseSeen k seen) : p ∈ seen := by
  induction seen with
  | nil => cases h
  | cons q rest ih =>
    rw [eraseSeen] at h
    by_cases hq : q.1 = k
    · rw [if_pos hq] at h
      exact List.mem_cons_of_mem q h
    · rw [if_neg hq] at h
      rcases List.mem_cons.mp h with h1 | h2
      · exact h1 ▸ List.mem_cons_self q rest
      · exact List.mem_cons_of_mem q (ih h2)

lemma erasePath_perm {l₁ l₂ : List (List String)} (h : l₁.Perm l₂)
    (k : List String) : (erasePath k l₁).Perm (erasePath k l₂) := by
  induction h with
  | nil => exact List.Perm.refl _
  | cons x h ih =>
    rw [erasePath, erasePath]
    by_cases hx : x = k
    · rw [if_pos hx, if_pos hx]
      exact h
    · rw [if_neg hx, if_neg hx]
      exact ih.cons x
  | swap x y l =>
    rw [erasePath, erasePath]
    by_cases hy : y = k <;> by_cases hx : x = k <;>
      simp only [hy, hx, if_true, if_false, erasePath]
    · subst hy; subst hx
      exact List.Perm.refl _
    · exact List.Perm.refl _
    · exact List.Perm.refl _
    · exact List.Perm.swap x y (erasePath k l)
  | trans h1 h2 ih1 ih2 => exact ih1.trans ih2

lemma erasePath_sublist (k : List String) (l : List (List String)) :
    (erasePath k l).Sublist l := by
  induction l with
  | nil => exact List.Sublist.refl _
  | cons x rest ih =>
    rw [erasePath]
    by_cases hx : x = k
    · rw [if_pos hx]
      exact List.sublist_cons_self x rest
    · rw [if_neg hx]
      exact ih.cons₂ x

lemma readSocket_spec (root : List String) :
    ∀ (socket : List UdevSocketEvent) (seen : List (List String × UDevice))
      (r : Option DeviceEvent) (socket' : List UdevSocketEvent)
      (seen' : List (List String × UDevice)),
    (∀ p ∈ seen, (p.2).syspath = p.1) →
    readSocket root socket seen = (r, socket', seen') →
    (r = none → seen' = seen) ∧
    (∀ d, r = some (.Add d) →
      lookupSeen d.syspath seen = none ∧ seen' = (d.syspath, d) :: seen) ∧
    (∀ d, r = some (.Remove d) →
      lookupSeen d.syspath seen = some d ∧ seen' = eraseSeen d.syspath seen) := by
  intro socket
  induction socket with
  | nil =>
    intro seen r socket' seen' hcanon h
    rw [readSocket] at h
    injection h with h1 h23
    injection h23 with h2 h3
    subst h1; subst h3
    refine ⟨fun _ => rfl, ?_, ?_⟩
    · intro d hd; simp at hd
    · intro d hd; simp at hd
  | cons e rest ih =>
    intro seen r socket' seen' hcanon h
    obtain ⟨et, d⟩ := e
    cases et
    · by_cases hp : root.isPrefixOf d.syspath
      · rcases hl : lookupSeen d.syspath seen with _ | c
        · rw [readSocket] at h
          simp only [hp, if_true, hl] at h
          injection h with h1 h23
          injection h23 with h2 h3
          subst h1; subst h3
          refine ⟨?_, ?_, ?_⟩
          · intro hr; simp at hr
          · intro d' hd
            rw [Option.some.injEq, DeviceEvent.Add.injEq] at hd
            subst hd
            exact ⟨hl, rfl⟩
          · intro d' hd; simp at hd
        · rw [readSocket] at h
          simp only [hp, if_true, hl] at h
          exact ih seen r socket' seen' hcanon h
      · rw [readSocket] at h
        simp only [hp, Bool.false_eq_true, if_false] at h
        exact ih seen r socket' seen' hcanon h
    · rcases hl : lookupSeen d.syspath seen with _ | c
      · rw [readSocket] at h
        simp only [hl] at h
        exact ih seen r socket' seen' hcanon h
      · rw [readSocket] at h
        simp only [hl] at h
        injection h with h1 h23
        injection h23 with h2 h3
        subst h1; subst h3
        have hck : c.syspath = d.syspath := hcanon _ (lookupSeen_mem _ _ _ hl)
        refine ⟨?_, ?_, ?_⟩
        · intro hr; simp at hr
        · intro d' hd; simp at hd
        · intro d' hd
          rw [Option.some.injEq, DeviceEvent.Remove.injEq] at hd
          subst hd
          rw [hck]
          exact ⟨hl, rfl⟩
    · rw [readSocket] at h
      exact ih seen r socket' seen' hcanon h

lemma drain_freshAdds (fuel : Nat) :
    ∀ (m : DeviceMonitor) (alive : List (List String)),
    (∀ p ∈ m.seen, (p.2).syspath = p.1) →
    (keysOf m.seen).Nodup →
    (keysOf m.seen).Perm (alive ++ m.enumerated.map UDevice.syspath) →
    freshAdds alive (DeviceMonitor.drain fuel m) := by
  induction fuel with
  | zero => intro m alive _ _ _; trivial
  | succ fuel ih =>
    intro m alive hcanon hnodup hperm
    obtain ⟨root, socket, seen, enumList⟩ := m
    rcases enumList with _ | ⟨d, ds⟩
    · simp only [List.map_nil, List.append_nil] at hperm
      rcases hr : readSocket root socket seen with ⟨r, socket', seen'⟩
      have hspec := readSocket_spec root socket seen r socket' seen' hcanon hr
      show freshAdds alive (DeviceMonitor.drain (fuel + 1) ⟨root, socket, seen, []⟩)
      rw [DeviceMonitor.drain]
      rw [show DeviceMonitor.try_read ⟨root, socket, seen, []⟩
          = (r, ⟨root, socket', seen', []⟩) from by
        rw [DeviceMonitor.try_read]
        rw [hr]]
      rcases r with _ | ⟨d⟩ | ⟨d⟩
      · trivial
      · obtain ⟨hnone, hseen'⟩ := hspec.2.1 d rfl
        have hfresh : d.syspath ∉ alive := fun hmem => by
          rw [lookupSeen_eq_none_iff] at hnone
          exact hnone (hperm.mem_iff.mpr hmem)
        refine ⟨hfresh, ?_⟩
        apply ih ⟨root, socket', seen', []⟩ (d.syspath :: alive)
        · rw [hseen']
          intro p hp
          rcases List.mem_cons.mp hp with h1 | h2
          · rw [h1]
          · exact hcanon p h2
        · rw [hseen']
          have : keysOf ((d.syspath, d) :: seen) = d.syspath :: keysOf seen := rfl
          rw [this]
          exact List.Nodup.cons
            (fun hmem => (lookupSeen_eq_none_iff d.syspath seen).mp hnone hmem) hnodup
        · rw [hseen']
          show (d.syspath :: keysOf seen).Perm
            ((d.syspath :: alive) ++ [].map UDevice.syspath)
          simpa using hperm.cons d.syspath
      · obtain ⟨hlk, hseen'⟩ := hspec.2.2 d rfl
        apply ih ⟨root, socket', seen', []⟩ (erasePath d.syspath alive)
        · rw [hseen']
          intro p hp
          exact hcanon p (mem_eraseSeen_subset _ _ _ hp)
        · rw [hseen']
          show (keysOf (eraseSeen d.syspath seen)).Nodup
          rw [keysOf_eraseSeen]
          exact List.Nodup.sublist (erasePath_sublist _ _) hnodup
        · rw [hseen']
          show (keysOf (eraseSeen d.syspath seen)).Perm
            (erasePath d.syspath alive ++ [].map UDevice.syspath)
          rw [keysOf_eraseSeen]
          simpa using erasePath_perm hperm d.syspath
    · show freshAdds alive
        (DeviceEvent.Add d :: DeviceMonitor.drain fuel ⟨root, socket, seen, ds⟩)
      have hall : (alive ++ d.syspath :: ds.map UDevice.syspath).Nodup :=
        hperm.nodup hnodup
      have hdisj := List.disjoint_of_nodup_append hall
      refine ⟨fun hmem => hdisj hmem (by simp), ?_⟩
      apply ih ⟨root, socket, seen, ds⟩ (d.syspath :: alive) hcanon hnodup
      show (keysOf seen).Perm ((d.syspath :: alive) ++ ds.map UDevice.syspath)
      simp only [List.map_cons] at hperm
      exact hperm.trans List.perm_middle

lemma drain_serves_enumerated_first :
    ∀ (enumList : List UDevice) (fuel : Nat) (root : List String)
      (socket : List UdevSocketEvent) (seen : List (List String × UDevice)),
    enumList.length ≤ fuel →
    DeviceMonitor.drain fuel ⟨root, socket, seen, enumList⟩ =
      enumList.map DeviceEvent.Add ++
        DeviceMonitor.drain (fuel - enumList.length) ⟨root, socket, seen, []⟩ := by
  intro enumList
  induction enumList with
  | nil => intro fuel root socket seen h; simp
  | cons d ds ih =>
    intro fuel root socket seen h
    match fuel with
    | f + 1 =>
      show DeviceEvent.Add d :: DeviceMonitor.drain f ⟨root, socket, seen, ds⟩ = _
      rw [ih f root socket seen (by simpa using h)]
      simp

/-- Counterexample device: a child of the monitored hub. -/
def ctrDevice : UDevice := ⟨["sys", "hub", "dev1"], (189, 0)⟩

/-- Counterexample for C4 as stated: the stream can yield two `Add` events
for the same syspath — a device removed and re-plugged produces a second
`Add`, because its `Remove` took the syspath out of the seen-map.  The claim
holds only in the absence of an intervening `Remove`. -/
theorem monitor_readd_counterexample :
    DeviceMonitor.drain 3 (DeviceMonitor.new ["sys", "hub"] []
      [⟨.add, ctrDevice⟩, ⟨.remove, ctrDevice⟩, ⟨.add, ctrDevice⟩]) =
      [.Add ctrDevice, .Remove ctrDevice, .Add ctrDevice] ∧
    ¬ (addSyspaths (DeviceMonitor.drain 3 (DeviceMonitor.new ["sys", "hub"] []
      [⟨.add, ctrDevice⟩, ⟨.remove, ctrDevice⟩, ⟨.add, ctrDevice⟩]))).Nodup := by
  constructor
  · decide
  · decide

/-- C4 (amended): the stream yields exactly one `Add` per device present
under the root before any live event; every `Add` it yields (snapshot or
live) is of a syspath with no earlier `Add` still alive — i.e. no duplicate
`Add` without an intervening `Remove` of the same syspath; and a live `Add`
whose syspath is in the seen-map is suppressed (only logged). -/
theorem monitor_stream_dedup (root : List String) (devices : List UDevice)
    (socket : List UdevSocketEvent) (fuel : Nat)
    (hnodup : ((devices.filter
      (fun d => root.isPrefixOf d.syspath)).map UDevice.syspath).Nodup) :
    ((DeviceMonitor.new root devices socket).enumerated.length ≤ fuel →
      ∃ live, DeviceMonitor.drain fuel (DeviceMonitor.new root devices socket) =
        (DeviceMonitor.new root devices socket).enumerated.map DeviceEvent.Add
          ++ live) ∧
    freshAdds [] (DeviceMonitor.drain fuel (DeviceMonitor.new root devices socket)) ∧
    (∀ (root' : List String) (e : UdevSocketEvent)
        (rest : List UdevSocketEvent) (seen : List (List String × UDevice)),
      e.etype = .add → root'.isPrefixOf e.device.syspath →
      (lookupSeen e.device.syspath seen).isSome →
      DeviceMonitor.try_read ⟨root', e :: rest, seen, []⟩ =
        DeviceMonitor.try_read ⟨root', rest, seen, []⟩) := by
  refine ⟨?_, ?_, ?_⟩
  · intro hlen
    exact ⟨_, drain_serves_enumerated_first _ fuel root socket _ hlen⟩
  · apply drain_freshAdds
    · intro p hp
      show p.2.syspath = p.1
      obtain ⟨d, hd, hpd⟩ := List.mem_map.mp hp
      rw [← hpd]
    · show (keysOf ((devices.filter _).map (fun d => (d.syspath, d)))).Nodup
      have : keysOf ((devices.filter (fun d => root.isPrefixOf d.syspath)).map
          (fun d => (d.syspath, d))) =
          (devices.filter (fun d => root.isPrefixOf d.syspath)).map UDevice.syspath := by
        simp [keysOf, Function.comp]
      rw [this]
      exact hnodup
    · show (keysOf ((devices.filter _).map (fun d => (d.syspath, d)))).Perm
        ([] ++ (devices.filter _).map UDevice.syspath)
      have : keysOf ((devices.filter (fun d => root.isPrefixOf d.syspath)).map
          (fun d => (d.syspath, d))) =
          (devices.filter (fun d => root.isPrefixOf d.syspath)).map UDevice.syspath := by
        simp [keysOf, Function.comp]
      rw [this]
      simp
  · intro root' e rest seen het hpref hsome
    obtain ⟨et, d⟩ := e
    cases het
    rw [DeviceMonitor.try_read, DeviceMonitor.try_read]
    rcases hl : lookupSeen d.syspath seen with _ | c
    · rw [hl] at hsome; cases hsome
    · rw [show readSocket root' (⟨UEventType.add, d⟩ :: rest) seen
          = readSocket root' rest seen from by
        rw [readSocket]
        simp only [hpref, if_true, hl]]

/-- Witness for C4 (amended): one pre-existing device under the hub and a
duplicate live `Add` for it — the snapshot `Add` comes first, the duplicate
is suppressed, and every emitted `Add` is fresh. -/
theorem monitor_stream_dedup_witness :
    freshAdds [] (DeviceMonitor.drain 2 (DeviceMonitor.new ["sys", "hub"]
      [⟨["sys", "hub", "a"], (1, 2)⟩]
      [⟨.add, ⟨["sys", "hub", "a"], (1, 2)⟩⟩])) ∧
    ∃ live, DeviceMonitor.drain 2 (DeviceMonitor.new ["sys", "hub"]
      [⟨["sys", "hub", "a"], (1, 2)⟩]
      [⟨.add, ⟨["sys", "hub", "a"], (1, 2)⟩⟩]) =
      (DeviceMonitor.new ["sys", "hub"] [⟨["sys", "hub", "a"], (1, 2)⟩]
        [⟨.add, ⟨["sys", "hub", "a"], (1, 2)⟩⟩]).enumerated.map DeviceEvent.Add
        ++ live := by
  have h := monitor_stream_dedup ["sys", "hub"] [⟨["sys", "hub", "a"], (1, 2)⟩]
    [⟨.add, ⟨["sys", "hub", "a"], (1, 2)⟩⟩] 2 (by decide)
  exact ⟨h.2.1, h.1 (by decide)⟩

end ContainerHotplug
